import Mathlib

/-!
GafferScene::MapOffset.

A shallow embedding of `src/src/GafferScene/MapOffset.cpp`: the node that adds an
offset (plus a UDIM tile offset) to one V2f primitive variable of the objects of a
scene.  Floats are embedded as rationals (exact arithmetic), the C++ `int` as a
bounded integer with wrapping subtraction, a throwing plug evaluation as `Except`.
-/

namespace GafferScene

/-! ## Values -/

/-- Imath::V2f with exact components. -/
structure V2f where
  x : ℚ
  y : ℚ
deriving DecidableEq

/-- Componentwise sum, the `+=` of Imath::Vec2. -/
def V2f.add (a b : V2f) : V2f := ⟨a.x + b.x, a.y + b.y⟩

instance : Add V2f := ⟨V2f.add⟩

/-- The C++ `int` (32 bit, two's complement). -/
structure CInt where
  val : Int
  lo : -2147483648 ≤ val
  hi : val ≤ 2147483647

/-- Reduction of an integer into the range of `int`. -/
def wrapInt (z : Int) : Int := (z + 2147483648) % 4294967296 - 2147483648

/-- What a failed plug evaluation throws. -/
abbrev ComputeError := String

/-- Gaffer::Context: variable names and their values. -/
abbrev Context := List (String × String)

/-- ScenePlug::ScenePath, the names from the root down. -/
abbrev ScenePath := List String

/-! ## Objects -/

/-- IECore::Data, by run-time type. -/
inductive Data where
  | v2fVector (values : List V2f)
  | v2f (value : V2f)
  | floatVector (values : List ℚ)
  | intVector (values : List Int)
  | string (value : String)
deriving DecidableEq

/-- PrimitiveVariable::Interpolation. -/
inductive Interpolation where
  | invalid | constant | uniform | varying | vertex | faceVarying
deriving DecidableEq

/-- IECoreScene::PrimitiveVariable. -/
structure PrimitiveVariable where
  interpolation : Interpolation
  data : Data
deriving DecidableEq

/-- IECoreScene::Primitive: `variableMap` is the PrimitiveVariableMap `variables`, listed in key
order; `topology` stands for everything else the primitive holds. Each variable owns
its data (value semantics). -/
structure Primitive where
  topology : List Nat
  variableMap : List (String × PrimitiveVariable)
deriving DecidableEq

/-- IECore::Object: a primitive, or an object of any other type (camera, light,
null object, ...). -/
inductive Object where
  | primitive (p : Primitive)
  | other (typeName : String)
deriving DecidableEq

/-- The `runTimeCast<const Primitive>`: null for an object that is no primitive. -/
def runTimeCastPrimitive : Object → Option Primitive
  | .primitive p => some p
  | .other _ => none

/-- The `runTimeCast<V2fVectorData>`. -/
def runTimeCastV2fVectorData : Data → Option (List V2f)
  | .v2fVector values => some values
  | _ => none

/-- PrimitiveVariableMap::find. -/
def findVariable : List (String × PrimitiveVariable) → String → Option PrimitiveVariable
  | [], _ => none
  | (key, v) :: rest, name => if key = name then some v else findVariable rest name

/-- Primitive::copy, a deep copy. -/
def Primitive.copy (p : Primitive) : Primitive := p

/-- Primitive::variableData<V2fVectorData>( name ): the data of the variable of that
name, null when there is no such variable or its data has another type. -/
def Primitive.variableData (p : Primitive) (name : String) : Option (List V2f) :=
  match findVariable p.variableMap name with
  | none => none
  | some v => runTimeCastV2fVectorData v.data

/-- Stores `values` as the V2f vector data of the variable found under `name`: the
effect of writing through the `writable()` reference of that variable's data. -/
def writeVariable :
    List (String × PrimitiveVariable) → String → List V2f → List (String × PrimitiveVariable)
  | [], _, _ => []
  | (key, v) :: rest, name, values =>
    if key = name then (key, { v with data := .v2fVector values }) :: rest
    else (key, v) :: writeVariable rest name values

/-- The primitive after the in-place write to the data of variable `name`. -/
def Primitive.written (p : Primitive) (name : String) (values : List V2f) : Primitive :=
  { p with variableMap := writeVariable p.variableMap name values }

/-! ## Plugs and connections -/

/-- A plug of the node, identified by the names leading to it from the node:
`offset.x` is `["offset", "x"]`. -/
structure Plug where
  names : List String
deriving DecidableEq

/-- The child plug of that name. -/
def Plug.child (p : Plug) (name : String) : Plug := ⟨p.names ++ [name]⟩

/-- The `parent<Plug>()`: the parent when it is a plug, null for a plug parented
directly to the node. -/
def Plug.parent (p : Plug) : Option Plug :=
  if 2 ≤ p.names.length then some ⟨p.names.dropLast⟩ else none

/-- The plugs of a node: the names of its children in order, and the input
connection of each plug (`Plug::getInput`). -/
structure Node where
  children : List String
  input : Plug → Option Plug

/-- GraphComponent::addChild. -/
def Node.addChild (n : Node) (name : String) : Node :=
  { n with children := n.children ++ [name] }

/-- GraphComponent::getChild( index ). -/
def Node.getChild (n : Node) (index : Nat) : Option Plug :=
  (n.children.get? index).map (fun name => ⟨[name]⟩)

/-- Plug::setInput. -/
def Node.setInput (n : Node) (plug input : Plug) : Node :=
  { n with input := fun p => if p = plug then some input else n.input p }

/-- SceneProcessor::inPlug. -/
def inPlug : Plug := ⟨["in"]⟩

/-- SceneProcessor::outPlug. -/
def outPlug : Plug := ⟨["out"]⟩

/-- ScenePlug::boundPlug. -/
def Plug.boundPlug (scene : Plug) : Plug := scene.child "bound"

/-- ScenePlug::transformPlug. -/
def Plug.transformPlug (scene : Plug) : Plug := scene.child "transform"

/-- ScenePlug::attributesPlug. -/
def Plug.attributesPlug (scene : Plug) : Plug := scene.child "attributes"

/-- ScenePlug::objectPlug. -/
def Plug.objectPlug (scene : Plug) : Plug := scene.child "object"

/-- MapOffset::offsetPlug, the child added first (line 58). -/
def offsetPlug : Plug := ⟨["offset"]⟩

/-- MapOffset::udimPlug, the child added second (line 59). -/
def udimPlug : Plug := ⟨["udim"]⟩

/-- MapOffset::uvSetPlug, the child added third (line 60). -/
def uvSetPlug : Plug := ⟨["uvSet"]⟩

/-- MapOffset::MapOffset. `base` is the node as the SceneElementProcessor constructor
leaves it; the result is `g_firstPlugIndex` and the node. -/
def construct (base : Node) : Nat × Node :=
  let g_firstPlugIndex := base.children.length
  let n := base.addChild "offset"
  let n := n.addChild "udim"
  let n := n.addChild "uvSet"
  -- Fast pass-throughs for things we don't modify
  let n := n.setInput outPlug.attributesPlug inPlug.attributesPlug
  let n := n.setInput outPlug.transformPlug inPlug.transformPlug
  let n := n.setInput outPlug.boundPlug inPlug.boundPlug
  (g_firstPlugIndex, n)

/-- Modelled from the spec: Plug::setInput, ValuePlug::getValue and ValuePlug::hash
are not in src. By section 3 a plug carries an optional upstream connection and
otherwise a value; a quantity `q` read off the plugs (the value, or the hash, at a
path in a context) follows the connections of a node when every connected plug
reads as the plug it is connected to. -/
def FollowsConnections {α : Type} (n : Node) (q : Plug → ScenePath → Context → α) : Prop :=
  ∀ plug input, n.input plug = some input → q plug = q input

/-- MapOffset::affects. `base` is SceneElementProcessor::affects, which is not in
src: it maps the input and the outputs so far to the outputs after the call. -/
def affects (base : Plug → List Plug → List Plug) (input : Plug) (outputs : List Plug) :
    List Plug :=
  let outputs := base input outputs
  if input.parent = some offsetPlug ∨ input = udimPlug ∨ input = uvSetPlug then
    outputs ++ [outPlug.objectPlug]
  else
    outputs

/-- The leaf plugs hashProcessedObject (lines 123 to 125) and computeProcessedObject
(lines 139, 149 and 151) read: the two components of `offset`, `udim` and `uvSet`. -/
def plugsRead : List Plug :=
  [offsetPlug.child "x", offsetPlug.child "y", udimPlug, uvSetPlug]

/-! ## The node -/

/-- The values of the three plugs MapOffset adds: what `getValue()` returns for each
in a context, or the error it throws. -/
structure MapOffset where
  offset : Context → Except ComputeError V2f
  udim : Context → Except ComputeError CInt
  uvSet : Context → Except ComputeError String

/-- A node whose three plugs hold fixed values. -/
def MapOffset.withValues (offset : V2f) (udim : CInt) (uvSet : String) : MapOffset :=
  { offset := fun _ => .ok offset
    udim := fun _ => .ok udim
    uvSet := fun _ => .ok uvSet }

/-- The tile of a UDIM, `( (udim - 1001) % 10, (udim - 1001) / 10 )` in `int`
arithmetic (lines 152 and 153). -/
def udimTile (udim : CInt) : Int × Int :=
  let t := wrapInt (udim.val - 1001)
  (Int.tmod t 10, Int.tdiv t 10)

/-- MapOffset::processesObject. -/
def processesObject (_node : MapOffset) : Bool := true

/-- MapOffset::computeProcessedObject. -/
def computeProcessedObject (node : MapOffset) (_path : ScenePath) (context : Context)
    (inputObject : Object) : Except ComputeError Object :=
  -- early out if it's not a primitive
  match runTimeCastPrimitive inputObject with
  | none => .ok inputObject
  | some inputPrimitive =>
    -- early out if the uv set hasn't been specified
    match node.uvSet context with
    | .error e => .error e
    | .ok uvSet =>
      if uvSet = "" then .ok inputObject
      else
        -- do the work
        let result := inputPrimitive.copy
        match node.offset context with
        | .error e => .error e
        | .ok offset =>
          match node.udim context with
          | .error e => .error e
          | .ok udim =>
            let offset : V2f :=
              ⟨offset.x + ((udimTile udim).1 : ℚ), offset.y + ((udimTile udim).2 : ℚ)⟩
            match result.variableData uvSet with
            | some uvData =>
              .ok (.primitive (result.written uvSet (uvData.map (fun uv => uv + offset))))
            | none => .ok (.primitive result)

/-! ## Hashing -/

/-- One datum appended to a hash. -/
inductive HashItem where
  | typeId (name : String)
  | float (value : ℚ)
  | int (value : Int)
  | string (value : String)
deriving DecidableEq

/-- Modelled from the spec: IECore::MurmurHash is not in src. Section 3 describes the
hash as a content digest combining what is appended to it; it is embedded as the
sequence of the data appended, so that two hashes are equal exactly when the same
data were appended in the same order. -/
abbrev MurmurHash := List HashItem

/-- Modelled from the spec: ValuePlug::hash( h ) is not in src. By section 4.3 (c) the
node-local settings are appended to the digest: the plug appends its value in the
context, here the two components of a V2fPlug. -/
def hashV2fPlug (plug : Context → Except ComputeError V2f) (context : Context)
    (h : MurmurHash) : Except ComputeError MurmurHash :=
  match plug context with
  | .error e => .error e
  | .ok v => .ok (h ++ [.float v.x, .float v.y])

/-- Modelled from the spec: ValuePlug::hash( h ) for an IntPlug, see `hashV2fPlug`. -/
def hashIntPlug (plug : Context → Except ComputeError CInt) (context : Context)
    (h : MurmurHash) : Except ComputeError MurmurHash :=
  match plug context with
  | .error e => .error e
  | .ok v => .ok (h ++ [.int v.val])

/-- Modelled from the spec: ValuePlug::hash( h ) for a StringPlug, see `hashV2fPlug`. -/
def hashStringPlug (plug : Context → Except ComputeError String) (context : Context)
    (h : MurmurHash) : Except ComputeError MurmurHash :=
  match plug context with
  | .error e => .error e
  | .ok v => .ok (h ++ [.string v])

/-- MapOffset::hashProcessedObject. -/
def hashProcessedObject (node : MapOffset) (_path : ScenePath) (context : Context)
    (h : MurmurHash) : Except ComputeError MurmurHash :=
  match hashV2fPlug node.offset context h with
  | .error e => .error e
  | .ok h =>
    match hashIntPlug node.udim context h with
    | .error e => .error e
    | .ok h => hashStringPlug node.uvSet context h

/-- Modelled from the spec: SceneElementProcessor::hashObject is not in src. By
sections 4.3 and 4.5 the hash of the output object appends (a) a per-node-type seed,
(b) the hash of the upstream object and (c) the settings, through the narrow hooks
"does this path's object change?" (`processesObject`) and `hashProcessedObject`; when
the object does not change the hash is the upstream hash itself. -/
def hashObject (node : MapOffset) (inObjectHash : ScenePath → Context → MurmurHash)
    (path : ScenePath) (context : Context) : Except ComputeError MurmurHash :=
  if processesObject node then
    hashProcessedObject node path context
      ([HashItem.typeId "GafferScene::MapOffset"] ++ inObjectHash path context)
  else
    .ok (inObjectHash path context)

/-! ## Fixtures -/

/-- The UDIM 1001, the default and minimum of the `udim` plug (line 59). -/
def udim1001 : CInt := ⟨1001, by decide, by decide⟩

/-- The UDIM 1012, one tile right and one tile up. -/
def udim1012 : CInt := ⟨1012, by decide, by decide⟩

/-- A primitive with positions and one uv, `(0.1, 0.1)`. -/
def squarePrimitive : Primitive :=
  { topology := [4]
    variableMap :=
      [ ("P", ⟨.vertex, .floatVector [0, 1]⟩),
        ("uv", ⟨.faceVarying, .v2fVector [⟨1 / 10, 1 / 10⟩]⟩) ] }

/-- A node all of whose plugs throw when evaluated. -/
def throwingNode : MapOffset :=
  { offset := fun _ => .error "offset"
    udim := fun _ => .error "udim"
    uvSet := fun _ => .error "uvSet" }

/-- A node as a base-class constructor may leave it: four children, no connection. -/
def bareNode : Node :=
  { children := ["enabled", "in", "out", "filter"]
    input := fun _ => none }

/-- A quantity that depends on the last name of the plug only. -/
def lastName (plug : Plug) (_path : ScenePath) (_context : Context) : String :=
  plug.names.getLastD ""

/-- A hash that depends on the last name of the plug only. -/
def lastNameHash (plug : Plug) (_path : ScenePath) (_context : Context) : MurmurHash :=
  [.string (plug.names.getLastD "")]

/-- An upstream scene every object hash of which is empty. -/
def emptyUpstream (_path : ScenePath) (_context : Context) : MurmurHash := []

/-- An upstream scene every object hash of which is the one datum "upstream". -/
def someUpstream (_path : ScenePath) (_context : Context) : MurmurHash :=
  [.string "upstream"]

/-- The tile of a UDIM as a vector, by mathematical `mod` and `div`. -/
def tileVector (w : CInt) : V2f :=
  ⟨(((w.val - 1001) % 10 : Int) : ℚ), (((w.val - 1001) / 10 : Int) : ℚ)⟩

/-! ## Lemmas -/

theorem V2f.add_def (a b : V2f) : a + b = ⟨a.x + b.x, a.y + b.y⟩ := rfl

theorem wrapInt_of_range (z : Int) (h1 : -2147483648 ≤ z) (h2 : z ≤ 2147483647) :
    wrapInt z = z := by
  unfold wrapInt
  omega

theorem udimTile_of_ge (udim : CInt) (h : 1001 ≤ udim.val) :
    udimTile udim = ((udim.val - 1001) % 10, (udim.val - 1001) / 10) := by
  have hi := udim.hi
  have hw : wrapInt (udim.val - 1001) = udim.val - 1001 :=
    wrapInt_of_range _ (by omega) (by omega)
  have h0 : (0 : Int) ≤ udim.val - 1001 := by omega
  simp only [udimTile, hw]
  rw [Int.tmod_eq_emod h0 (by decide), Int.tdiv_eq_ediv h0 (by decide)]

theorem findVariable_writeVariable_same (vars : List (String × PrimitiveVariable))
    (name : String) (values : List V2f) (v : PrimitiveVariable)
    (h : findVariable vars name = some v) :
    findVariable (writeVariable vars name values) name
      = some { v with data := .v2fVector values } := by
  induction vars with
  | nil => simp [findVariable] at h
  | cons entry rest ih =>
    obtain ⟨key, w⟩ := entry
    by_cases hk : key = name
    · simp only [findVariable, hk, if_true, Option.some.injEq] at h
      simp [writeVariable, findVariable, hk, h]
    · simp only [findVariable, hk, if_false] at h
      simp [writeVariable, findVariable, hk, ih h]

theorem findVariable_writeVariable_other (vars : List (String × PrimitiveVariable))
    (name other : String) (values : List V2f) (h : other ≠ name) :
    findVariable (writeVariable vars name values) other = findVariable vars other := by
  induction vars with
  | nil => simp [writeVariable]
  | cons entry rest ih =>
    obtain ⟨key, w⟩ := entry
    by_cases hk : key = name
    · have hko : key ≠ other := fun e => h (e ▸ hk)
      simp [writeVariable, findVariable, hk, hko, Ne.symm h]
    · by_cases hko : key = other
      · subst hko
        simp [writeVariable, findVariable, hk]
      · simp [writeVariable, findVariable, hk, hko, ih]

theorem writeVariable_keys (vars : List (String × PrimitiveVariable)) (name : String)
    (values : List V2f) :
    (writeVariable vars name values).map Prod.fst = vars.map Prod.fst := by
  induction vars with
  | nil => simp [writeVariable]
  | cons entry rest ih =>
    obtain ⟨key, w⟩ := entry
    by_cases hk : key = name
    · simp [writeVariable, hk]
    · simp [writeVariable, hk, ih]

theorem writeVariable_writeVariable (vars : List (String × PrimitiveVariable))
    (name : String) (first second : List V2f) :
    writeVariable (writeVariable vars name first) name second
      = writeVariable vars name second := by
  induction vars with
  | nil => simp [writeVariable]
  | cons entry rest ih =>
    obtain ⟨key, w⟩ := entry
    by_cases hk : key = name
    · simp [writeVariable, hk]
    · simp [writeVariable, hk, ih]

theorem writeVariable_same_data (vars : List (String × PrimitiveVariable)) (name : String)
    (values : List V2f) (v : PrimitiveVariable) (h : findVariable vars name = some v)
    (hd : v.data = .v2fVector values) : writeVariable vars name values = vars := by
  induction vars with
  | nil => simp [writeVariable]
  | cons entry rest ih =>
    obtain ⟨key, w⟩ := entry
    by_cases hk : key = name
    · simp only [findVariable, hk, if_true, Option.some.injEq] at h
      subst h
      simp [writeVariable, hk, ← hd]
    · simp only [findVariable, hk, if_false] at h
      simp [writeVariable, hk, ih h]

theorem variableData_eq_some (p : Primitive) (name : String) (values : List V2f)
    (h : p.variableData name = some values) :
    ∃ v, findVariable p.variableMap name = some v ∧ v.data = .v2fVector values := by
  unfold Primitive.variableData at h
  cases hf : findVariable p.variableMap name with
  | none => simp [hf] at h
  | some v =>
    refine ⟨v, rfl, ?_⟩
    simp only [hf] at h
    cases hd : v.data <;> simp_all [runTimeCastV2fVectorData]

theorem variableData_written (p : Primitive) (name : String) (values written : List V2f)
    (h : p.variableData name = some values) :
    (p.written name written).variableData name = some written := by
  obtain ⟨v, hv, _⟩ := variableData_eq_some p name values h
  simp [Primitive.variableData, Primitive.written,
    findVariable_writeVariable_same _ _ written v hv, runTimeCastV2fVectorData]

/-- What computeProcessedObject returns for a primitive once the three plugs have
evaluated and the uv set is named. -/
theorem computeProcessedObject_work (node : MapOffset) (path : ScenePath) (context : Context)
    (p : Primitive) (uvSet : String) (offset : V2f) (udim : CInt)
    (hSet : node.uvSet context = .ok uvSet) (hne : uvSet ≠ "")
    (hOff : node.offset context = .ok offset) (hUdim : node.udim context = .ok udim) :
    computeProcessedObject node path context (.primitive p)
      = match p.variableData uvSet with
        | some uvData =>
          .ok (.primitive (p.written uvSet (uvData.map (fun uv =>
            uv + ⟨offset.x + ((udimTile udim).1 : ℚ), offset.y + ((udimTile udim).2 : ℚ)⟩))))
        | none => .ok (.primitive p) := by
  simp only [computeProcessedObject, runTimeCastPrimitive, hSet, hne, if_false, hOff, hUdim,
    Primitive.copy]

theorem CInt.ext_val (a b : CInt) (h : a.val = b.val) : a = b := by
  cases a
  cases b
  cases h
  rfl

/-- What hashProcessedObject appends when it returns. -/
theorem hashProcessedObject_eq_ok (node : MapOffset) (path : ScenePath) (context : Context)
    (h result : MurmurHash) (hr : hashProcessedObject node path context h = .ok result) :
    ∃ offset udim uvSet, node.offset context = .ok offset ∧ node.udim context = .ok udim ∧
      node.uvSet context = .ok uvSet ∧
      result = h ++ [.float offset.x, .float offset.y, .int udim.val, .string uvSet] := by
  unfold hashProcessedObject hashV2fPlug hashIntPlug hashStringPlug at hr
  cases ho : node.offset context with
  | error e => simp [ho] at hr
  | ok offset =>
    cases hu : node.udim context with
    | error e => simp [ho, hu] at hr
    | ok udim =>
      cases hs : node.uvSet context with
      | error e => simp [ho, hu, hs] at hr
      | ok uvSet =>
        refine ⟨offset, udim, uvSet, rfl, rfl, rfl, ?_⟩
        simp [ho, hu, hs] at hr
        simp [← hr]

/-- What hashProcessedObject returns once the three plugs have evaluated. -/
theorem hashProcessedObject_ok (node : MapOffset) (path : ScenePath) (context : Context)
    (h : MurmurHash) (offset : V2f) (udim : CInt) (uvSet : String)
    (hOff : node.offset context = .ok offset) (hUdim : node.udim context = .ok udim)
    (hSet : node.uvSet context = .ok uvSet) :
    hashProcessedObject node path context h
      = .ok (h ++ [.float offset.x, .float offset.y, .int udim.val, .string uvSet]) := by
  simp [hashProcessedObject, hashV2fPlug, hashIntPlug, hashStringPlug, hOff, hUdim, hSet]

/-- The children the constructor adds are found at `g_firstPlugIndex` and the two
indices after it, where the plug accessors look for them (lines 72 to 100). -/
theorem construct_getChild (base : Node) :
    (construct base).2.getChild (construct base).1 = some offsetPlug ∧
    (construct base).2.getChild ((construct base).1 + 1) = some udimPlug ∧
    (construct base).2.getChild ((construct base).1 + 2) = some uvSetPlug := by
  have h0 : (base.children ++ ["offset", "udim", "uvSet"]).get? base.children.length
      = some "offset" := by
    rw [List.get?_eq_getElem?, List.getElem?_append_right (Nat.le_refl _)]
    simp
  have h1 : (base.children ++ ["offset", "udim", "uvSet"]).get? (base.children.length + 1)
      = some "udim" := by
    rw [List.get?_eq_getElem?, List.getElem?_append_right (Nat.le_add_right _ _)]
    simp
  have h2 : (base.children ++ ["offset", "udim", "uvSet"]).get? (base.children.length + 2)
      = some "uvSet" := by
    rw [List.get?_eq_getElem?, List.getElem?_append_right (Nat.le_add_right _ _)]
    simp
  have hc : (construct base).2.children = base.children ++ ["offset", "udim", "uvSet"] := by
    simp [construct, Node.setInput, Node.addChild]
  have hi : (construct base).1 = base.children.length := rfl
  simp only [Node.getChild, hc, hi, h0, h1, h2, Option.map_some', offsetPlug, udimPlug,
    uvSetPlug, and_self]

/-! ## Theorems -/

/-- C7: for every `int` udim from 1001 on, the tile computeProcessedObject adds is
`((udim - 1001) mod 10, (udim - 1001) div 10)`, with `0 <= dx <= 9`, `dy >= 0` and
`udim = 1001 + dx + 10 * dy`. -/
theorem udimTile_decomposition (udim : CInt) (h : 1001 ≤ udim.val) :
    udimTile udim = ((udim.val - 1001) % 10, (udim.val - 1001) / 10) ∧
    0 ≤ (udimTile udim).1 ∧ (udimTile udim).1 ≤ 9 ∧ 0 ≤ (udimTile udim).2 ∧
    udim.val = 1001 + (udimTile udim).1 + 10 * (udimTile udim).2 := by
  rw [udimTile_of_ge udim h]
  refine ⟨rfl, ?_, ?_, ?_, ?_⟩ <;> simp only <;> omega

/-- Witness of C7: UDIM 1001 is tile (0, 0) and UDIM 1012 is tile (1, 1). -/
theorem udimTile_decomposition_witness :
    udimTile udim1001 = (0, 0) ∧ udimTile udim1012 = (1, 1) ∧
    (udimTile udim1012 = ((udim1012.val - 1001) % 10, (udim1012.val - 1001) / 10) ∧
      0 ≤ (udimTile udim1012).1 ∧ (udimTile udim1012).1 ≤ 9 ∧ 0 ≤ (udimTile udim1012).2 ∧
      udim1012.val = 1001 + (udimTile udim1012).1 + 10 * (udimTile udim1012).2) :=
  ⟨by decide, by decide, udimTile_decomposition udim1012 (by decide)⟩

/-- C3: with an empty uvSet, computeProcessedObject returns the input object itself,
whatever the object and whatever the offset and udim plugs hold. -/
theorem computeProcessedObject_empty_uvSet (node : MapOffset) (path : ScenePath)
    (context : Context) (inputObject : Object) (h : node.uvSet context = .ok "") :
    computeProcessedObject node path context inputObject = .ok inputObject := by
  cases inputObject <;> simp [computeProcessedObject, runTimeCastPrimitive, h]

/-- Witness of C3: the square primitive through a node with an empty uvSet, a
non-zero offset and UDIM 1012. -/
theorem computeProcessedObject_empty_uvSet_witness :
    computeProcessedObject (MapOffset.withValues ⟨3 / 10, 7 / 10⟩ udim1012 "") ["plane"] []
      (.primitive squarePrimitive) = .ok (.primitive squarePrimitive) :=
  computeProcessedObject_empty_uvSet _ _ _ _ rfl

/-- C4: an input object that is not a primitive is returned unchanged, without an
error, before any plug is evaluated: the plugs may hold anything, or throw. -/
theorem computeProcessedObject_not_primitive (node : MapOffset) (path : ScenePath)
    (context : Context) (inputObject : Object)
    (h : runTimeCastPrimitive inputObject = none) :
    computeProcessedObject node path context inputObject = .ok inputObject := by
  simp [computeProcessedObject, h]

/-- Witness of C4: a camera through a node all of whose plugs throw. -/
theorem computeProcessedObject_not_primitive_witness :
    computeProcessedObject throwingNode ["camera"] [] (.other "Camera")
      = .ok (.other "Camera") :=
  computeProcessedObject_not_primitive throwingNode _ _ _ rfl

/-- C1: with a non-empty uvSet, an offset `(ox, oy)` and an `int` udim from 1001 on,
a primitive holding V2f vector data under that name comes back as a primitive whose
variable of that name has the same length and order, its i-th element being the
input's plus `(ox + (udim - 1001) mod 10, oy + (udim - 1001) div 10)`. -/
theorem computeProcessedObject_offsets_uv (node : MapOffset) (path : ScenePath)
    (context : Context) (p : Primitive) (uvSet : String) (offset : V2f) (udim : CInt)
    (uv : List V2f)
    (hSet : node.uvSet context = .ok uvSet) (hne : uvSet ≠ "")
    (hOff : node.offset context = .ok offset) (hUdim : node.udim context = .ok udim)
    (hge : 1001 ≤ udim.val) (hVar : p.variableData uvSet = some uv) :
    ∃ (r : Primitive) (out : List V2f),
      computeProcessedObject node path context (.primitive p) = .ok (.primitive r) ∧
      r.variableData uvSet = some out ∧ out.length = uv.length ∧
      ∀ (i : Nat) (hi : i < uv.length) (ho : i < out.length),
        out[i] = ⟨uv[i].x + (offset.x + (((udim.val - 1001) % 10 : Int) : ℚ)),
                  uv[i].y + (offset.y + (((udim.val - 1001) / 10 : Int) : ℚ))⟩ := by
  refine ⟨p.written uvSet (uv.map (fun e =>
      e + ⟨offset.x + ((udimTile udim).1 : ℚ), offset.y + ((udimTile udim).2 : ℚ)⟩)),
    uv.map (fun e =>
      e + ⟨offset.x + ((udimTile udim).1 : ℚ), offset.y + ((udimTile udim).2 : ℚ)⟩),
    ?_, variableData_written p uvSet uv _ hVar, ?_, ?_⟩
  · rw [computeProcessedObject_work node path context p uvSet offset udim hSet hne hOff hUdim,
      hVar]
  · simp
  · intro i hi ho
    simp [udimTile_of_ge udim hge, V2f.add_def]

/-- Witness of C1: uvSet "uv", offset (0.3, 0.7) and uv (0.1, 0.1) give (0.4, 0.8) at
UDIM 1001 and (1.4, 1.8) at UDIM 1012. -/
theorem computeProcessedObject_offsets_uv_witness :
    (∃ (r : Primitive) (out : List V2f),
      computeProcessedObject (MapOffset.withValues ⟨3 / 10, 7 / 10⟩ udim1012 "uv") ["plane"] []
        (.primitive squarePrimitive) = .ok (.primitive r) ∧
      r.variableData "uv" = some out ∧ out.length = [(⟨1 / 10, 1 / 10⟩ : V2f)].length ∧
      ∀ (i : Nat) (hi : i < [(⟨1 / 10, 1 / 10⟩ : V2f)].length) (ho : i < out.length),
        out[i] = ⟨[(⟨1 / 10, 1 / 10⟩ : V2f)][i].x
                    + (3 / 10 + (((udim1012.val - 1001) % 10 : Int) : ℚ)),
                  [(⟨1 / 10, 1 / 10⟩ : V2f)][i].y
                    + (7 / 10 + (((udim1012.val - 1001) / 10 : Int) : ℚ))⟩) ∧
    computeProcessedObject (MapOffset.withValues ⟨3 / 10, 7 / 10⟩ udim1001 "uv") ["plane"] []
        (.primitive squarePrimitive)
      = .ok (.primitive { squarePrimitive with
          variableMap :=
            [ ("P", ⟨.vertex, .floatVector [0, 1]⟩),
              ("uv", ⟨.faceVarying, .v2fVector [⟨4 / 10, 8 / 10⟩]⟩) ] }) ∧
    computeProcessedObject (MapOffset.withValues ⟨3 / 10, 7 / 10⟩ udim1012 "uv") ["plane"] []
        (.primitive squarePrimitive)
      = .ok (.primitive { squarePrimitive with
          variableMap :=
            [ ("P", ⟨.vertex, .floatVector [0, 1]⟩),
              ("uv", ⟨.faceVarying, .v2fVector [⟨14 / 10, 18 / 10⟩]⟩) ] }) := by
  refine ⟨computeProcessedObject_offsets_uv _ ["plane"] [] squarePrimitive "uv"
      ⟨3 / 10, 7 / 10⟩ udim1012 [⟨1 / 10, 1 / 10⟩] rfl (by decide) rfl rfl (by decide)
      (by simp [Primitive.variableData, squarePrimitive, findVariable,
        runTimeCastV2fVectorData]), ?_, ?_⟩
  · have h1 : Int.tmod 0 10 = 0 := by decide
    have h2 : Int.tdiv 0 10 = 0 := by decide
    simp [computeProcessedObject, runTimeCastPrimitive, MapOffset.withValues, squarePrimitive,
      Primitive.copy, Primitive.variableData, findVariable, runTimeCastV2fVectorData,
      Primitive.written, writeVariable, udimTile, wrapInt, udim1001, V2f.add_def, h1, h2]
    norm_num
  · have h1 : Int.tmod 11 10 = 1 := by decide
    have h2 : Int.tdiv 11 10 = 1 := by decide
    simp [computeProcessedObject, runTimeCastPrimitive, MapOffset.withValues, squarePrimitive,
      Primitive.copy, Primitive.variableData, findVariable, runTimeCastV2fVectorData,
      Primitive.written, writeVariable, udimTile, wrapInt, udim1012, V2f.add_def, h1, h2]
    norm_num

/-- C9: with a non-empty uvSet, a primitive comes back as a primitive that equals the
input in everything but the variable of that name (topology, variable names and
order, every other variable); and it equals the input outright when the input has
no variable of that name or the variable is not V2f vector data. -/
theorem computeProcessedObject_frame (node : MapOffset) (path : ScenePath)
    (context : Context) (p : Primitive) (uvSet : String) (offset : V2f) (udim : CInt)
    (hSet : node.uvSet context = .ok uvSet) (hne : uvSet ≠ "")
    (hOff : node.offset context = .ok offset) (hUdim : node.udim context = .ok udim) :
    ∃ r : Primitive,
      computeProcessedObject node path context (.primitive p) = .ok (.primitive r) ∧
      r.topology = p.topology ∧
      r.variableMap.map Prod.fst = p.variableMap.map Prod.fst ∧
      (∀ name, name ≠ uvSet →
        findVariable r.variableMap name = findVariable p.variableMap name) ∧
      (p.variableData uvSet = none → r = p) := by
  rw [computeProcessedObject_work node path context p uvSet offset udim hSet hne hOff hUdim]
  cases hVar : p.variableData uvSet with
  | none => exact ⟨p, rfl, rfl, rfl, fun _ _ => rfl, fun _ => rfl⟩
  | some uv =>
    refine ⟨_, rfl, rfl, writeVariable_keys _ _ _, ?_, ?_⟩
    · intro name hname
      exact findVariable_writeVariable_other _ _ _ _ hname
    · intro h
      cases h

/-- Witness of C9: the square primitive with uvSet "P", a variable that holds float
data, comes back equal to the input. -/
theorem computeProcessedObject_frame_witness :
    ∃ r : Primitive,
      computeProcessedObject (MapOffset.withValues ⟨3 / 10, 7 / 10⟩ udim1012 "P") ["plane"] []
        (.primitive squarePrimitive) = .ok (.primitive r) ∧
      r.topology = squarePrimitive.topology ∧
      r.variableMap.map Prod.fst = squarePrimitive.variableMap.map Prod.fst ∧
      (∀ name, name ≠ "P" →
        findVariable r.variableMap name = findVariable squarePrimitive.variableMap name) ∧
      (squarePrimitive.variableData "P" = none → r = squarePrimitive) :=
  computeProcessedObject_frame _ ["plane"] [] squarePrimitive "P" ⟨3 / 10, 7 / 10⟩ udim1012
    rfl (by decide) rfl rfl

/-- C10: offsets compose additively. Applying the node with (offset a, udim u) and
then with (offset b, udim v), both udims from 1001 on, gives the primitive that one
application with offset `a + b + tile(u) + tile(v)` at UDIM 1001 gives; and offset
(0, 0) at UDIM 1001 returns a primitive equal to the input. -/
theorem computeProcessedObject_compose (p : Primitive) (uvSet : String) (a b : V2f)
    (u v : CInt) (path : ScenePath) (context : Context)
    (hne : uvSet ≠ "") (hu : 1001 ≤ u.val) (hv : 1001 ≤ v.val) :
    (∃ r₁ r₂ : Primitive,
      computeProcessedObject (MapOffset.withValues a u uvSet) path context (.primitive p)
        = .ok (.primitive r₁) ∧
      computeProcessedObject (MapOffset.withValues b v uvSet) path context (.primitive r₁)
        = .ok (.primitive r₂) ∧
      computeProcessedObject
          (MapOffset.withValues (a + b + tileVector u + tileVector v) udim1001 uvSet)
          path context (.primitive p)
        = .ok (.primitive r₂)) ∧
    computeProcessedObject (MapOffset.withValues ⟨0, 0⟩ udim1001 uvSet) path context
        (.primitive p)
      = .ok (.primitive p) := by
  have h1001 : udimTile udim1001 = (0, 0) := by decide
  have work := fun (o : V2f) (w : CInt) (q : Primitive) =>
    computeProcessedObject_work (MapOffset.withValues o w uvSet) path context q uvSet o w
      rfl hne rfl rfl
  simp only [work, udimTile_of_ge u hu, udimTile_of_ge v hv, h1001]
  cases hVar : p.variableData uvSet with
  | none => exact ⟨⟨p, p, rfl, by simp only [hVar], rfl⟩, rfl⟩
  | some uv =>
    obtain ⟨w, hw, hd⟩ := variableData_eq_some p uvSet uv hVar
    refine ⟨⟨_, _, rfl, ?_, rfl⟩, ?_⟩
    · rw [variableData_written p uvSet uv _ hVar]
      simp only [Primitive.written, writeVariable_writeVariable, List.map_map]
      congr 4
      apply List.map_congr_left
      intro e _
      simp only [Function.comp, V2f.add_def, tileVector, V2f.mk.injEq]
      constructor <;> push_cast <;> ring
    · have hid : uv.map (fun e : V2f => e + ⟨(0 : ℚ) + ((0 : Int) : ℚ), (0 : ℚ) + ((0 : Int) : ℚ)⟩)
          = uv := by
        simp [V2f.add_def]
      simp only [hid, Primitive.written, writeVariable_same_data _ _ _ w hw hd]

/-- Witness of C10: (0.3, 0.7) at UDIM 1012, then (0.1, 0.1) at UDIM 1001, on the square
primitive. -/
theorem computeProcessedObject_compose_witness :
    (∃ r₁ r₂ : Primitive,
      computeProcessedObject (MapOffset.withValues ⟨3 / 10, 7 / 10⟩ udim1012 "uv")
          ["plane"] [] (.primitive squarePrimitive)
        = .ok (.primitive r₁) ∧
      computeProcessedObject (MapOffset.withValues ⟨1 / 10, 1 / 10⟩ udim1001 "uv")
          ["plane"] [] (.primitive r₁)
        = .ok (.primitive r₂) ∧
      computeProcessedObject
          (MapOffset.withValues
            ((⟨3 / 10, 7 / 10⟩ : V2f) + ⟨1 / 10, 1 / 10⟩ + tileVector udim1012
              + tileVector udim1001) udim1001 "uv")
          ["plane"] [] (.primitive squarePrimitive)
        = .ok (.primitive r₂)) ∧
    computeProcessedObject (MapOffset.withValues ⟨0, 0⟩ udim1001 "uv") ["plane"] []
        (.primitive squarePrimitive)
      = .ok (.primitive squarePrimitive) :=
  computeProcessedObject_compose squarePrimitive "uv" ⟨3 / 10, 7 / 10⟩ ⟨1 / 10, 1 / 10⟩
    udim1012 udim1001 ["plane"] [] (by decide) (by decide) (by decide)

/-- C6: two evaluations, at any paths and in any contexts, that agree on the input
object and on what the offset, udim and uvSet plugs hold make hashProcessedObject
append the same data and computeProcessedObject return the same object; and whenever
hashProcessedObject returns the same hash for both, so does computeProcessedObject
return the same object. -/
theorem hashProcessedObject_covers_compute (n₁ n₂ : MapOffset) (path₁ path₂ : ScenePath)
    (c₁ c₂ : Context)
    (hOff : n₁.offset c₁ = n₂.offset c₂) (hUdim : n₁.udim c₁ = n₂.udim c₂)
    (hSet : n₁.uvSet c₁ = n₂.uvSet c₂) :
    (∀ h, hashProcessedObject n₁ path₁ c₁ h = hashProcessedObject n₂ path₂ c₂ h) ∧
    (∀ inputObject, computeProcessedObject n₁ path₁ c₁ inputObject
      = computeProcessedObject n₂ path₂ c₂ inputObject) ∧
    (∀ (m₁ m₂ : MapOffset) (h result : MurmurHash),
      hashProcessedObject m₁ path₁ c₁ h = .ok result →
      hashProcessedObject m₂ path₂ c₂ h = .ok result →
      ∀ inputObject, computeProcessedObject m₁ path₁ c₁ inputObject
        = computeProcessedObject m₂ path₂ c₂ inputObject) := by
  refine ⟨?_, ?_, ?_⟩
  · intro h
    simp only [hashProcessedObject, hashV2fPlug, hashIntPlug, hashStringPlug, hOff, hUdim, hSet]
  · intro inputObject
    simp only [computeProcessedObject, hOff, hUdim, hSet]
  · intro m₁ m₂ h result h₁ h₂ inputObject
    obtain ⟨o₁, u₁, s₁, ho₁, hu₁, hs₁, hr₁⟩ := hashProcessedObject_eq_ok m₁ path₁ c₁ h result h₁
    obtain ⟨o₂, u₂, s₂, ho₂, hu₂, hs₂, hr₂⟩ := hashProcessedObject_eq_ok m₂ path₂ c₂ h result h₂
    have he := hr₁.symm.trans hr₂
    simp only [List.append_cancel_left_eq, List.cons.injEq, HashItem.float.injEq,
      HashItem.int.injEq, HashItem.string.injEq, and_true] at he
    obtain ⟨hx, hy, hu, hs⟩ := he
    have ho : o₁ = o₂ := by
      cases o₁
      cases o₂
      simp_all
    have hu' : u₁ = u₂ := CInt.ext_val u₁ u₂ hu
    subst ho hu' hs
    simp only [computeProcessedObject, ho₁, hu₁, hs₁, ho₂, hu₂, hs₂]

/-- Witness of C6: the same settings at two paths and in two contexts. -/
theorem hashProcessedObject_covers_compute_witness :
    (∀ h, hashProcessedObject (MapOffset.withValues ⟨3 / 10, 7 / 10⟩ udim1012 "uv") ["plane"]
        [("frame", "1")] h
      = hashProcessedObject (MapOffset.withValues ⟨3 / 10, 7 / 10⟩ udim1012 "uv") ["sphere"]
        [("frame", "2")] h) ∧
    (∀ inputObject,
      computeProcessedObject (MapOffset.withValues ⟨3 / 10, 7 / 10⟩ udim1012 "uv") ["plane"]
        [("frame", "1")] inputObject
      = computeProcessedObject (MapOffset.withValues ⟨3 / 10, 7 / 10⟩ udim1012 "uv")
        ["sphere"] [("frame", "2")] inputObject) :=
  ⟨(hashProcessedObject_covers_compute _ _ ["plane"] ["sphere"] [("frame", "1")]
      [("frame", "2")] rfl rfl rfl).1,
   (hashProcessedObject_covers_compute _ _ ["plane"] ["sphere"] [("frame", "1")]
      [("frame", "2")] rfl rfl rfl).2.1⟩

/-- Counterexample to C2: with an empty uvSet, offset (0, 0) and UDIM 1001 over an
input whose object hash is empty, hashProcessedObject appends four data and the hash
of the output object is not the hash of the input object. -/
theorem hashObject_empty_uvSet_counterexample :
    hashProcessedObject (MapOffset.withValues ⟨0, 0⟩ udim1001 "") [] [] []
      = .ok [.float 0, .float 0, .int 1001, .string ""] ∧
    hashObject (MapOffset.withValues ⟨0, 0⟩ udim1001 "") emptyUpstream [] []
      ≠ .ok (emptyUpstream [] []) := by
  constructor
  · rfl
  · simp [hashObject, processesObject, hashProcessedObject, hashV2fPlug, hashIntPlug,
      hashStringPlug, MapOffset.withValues, emptyUpstream]

/-- C2, amended: with an empty uvSet the node still processes the object and
hashProcessedObject still appends offset, udim and the empty uvSet, so the hash of
the output object is the seed, the input object hash and those data: a hash derived
from the input hash, not the input hash itself. -/
theorem hashObject_empty_uvSet (node : MapOffset)
    (inObjectHash : ScenePath → Context → MurmurHash) (path : ScenePath) (context : Context)
    (offset : V2f) (udim : CInt)
    (hSet : node.uvSet context = .ok "") (hOff : node.offset context = .ok offset)
    (hUdim : node.udim context = .ok udim) :
    processesObject node = true ∧
    (∀ h, hashProcessedObject node path context h
      = .ok (h ++ [.float offset.x, .float offset.y, .int udim.val, .string ""])) ∧
    hashObject node inObjectHash path context
      = .ok ([HashItem.typeId "GafferScene::MapOffset"] ++ inObjectHash path context
          ++ [.float offset.x, .float offset.y, .int udim.val, .string ""]) ∧
    hashObject node inObjectHash path context ≠ .ok (inObjectHash path context) := by
  have hp := fun h => hashProcessedObject_ok node path context h offset udim "" hOff hUdim hSet
  have ho : hashObject node inObjectHash path context
      = .ok ([HashItem.typeId "GafferScene::MapOffset"] ++ inObjectHash path context
          ++ [.float offset.x, .float offset.y, .int udim.val, .string ""]) := by
    simp only [hashObject, processesObject, if_true, hp]
  refine ⟨rfl, hp, ho, ?_⟩
  rw [ho]
  intro he
  have hl := congrArg List.length (Except.ok.inj he)
  simp at hl
  omega

/-- Witness of C2, amended: an empty uvSet with offset (0.3, 0.7) at UDIM 1012. -/
theorem hashObject_empty_uvSet_witness :
    hashObject (MapOffset.withValues ⟨3 / 10, 7 / 10⟩ udim1012 "") someUpstream ["plane"] []
      = .ok ([HashItem.typeId "GafferScene::MapOffset"] ++ someUpstream ["plane"] []
          ++ [.float (3 / 10), .float (7 / 10), .int 1012, .string ""]) ∧
    hashObject (MapOffset.withValues ⟨3 / 10, 7 / 10⟩ udim1012 "") someUpstream ["plane"] []
      ≠ .ok (someUpstream ["plane"] []) :=
  (hashObject_empty_uvSet (MapOffset.withValues ⟨3 / 10, 7 / 10⟩ udim1012 "")
    someUpstream ["plane"] [] ⟨3 / 10, 7 / 10⟩ udim1012 rfl rfl rfl).2.2

/-- C5: affects adds the output object plug when the input is a child of the offset
plug (as offset.x and offset.y are), the udim plug or the uvSet plug, and for every
other input returns what the base class reports; so every plug hashProcessedObject
and computeProcessedObject read is reported as affecting the output object. -/
theorem affects_object (base : Plug → List Plug → List Plug) (outputs : List Plug) :
    (∀ input, input.parent = some offsetPlug ∨ input = udimPlug ∨ input = uvSetPlug →
      affects base input outputs = base input outputs ++ [outPlug.objectPlug]) ∧
    (offsetPlug.child "x").parent = some offsetPlug ∧
    (offsetPlug.child "y").parent = some offsetPlug ∧
    (∀ input, input.parent ≠ some offsetPlug → input ≠ udimPlug → input ≠ uvSetPlug →
      affects base input outputs = base input outputs) ∧
    (∀ plug ∈ plugsRead, outPlug.objectPlug ∈ affects base plug outputs) := by
  have hx : (offsetPlug.child "x").parent = some offsetPlug := by decide
  have hy : (offsetPlug.child "y").parent = some offsetPlug := by decide
  have hyes : ∀ input, input.parent = some offsetPlug ∨ input = udimPlug ∨ input = uvSetPlug →
      affects base input outputs = base input outputs ++ [outPlug.objectPlug] := by
    intro input h
    simp only [affects, h, if_true]
  refine ⟨hyes, hx, hy, ?_, ?_⟩
  · intro input h₁ h₂ h₃
    simp only [affects, h₁, h₂, h₃, or_self, if_false]
  · intro plug hplug
    simp only [plugsRead, List.mem_cons, List.mem_singleton, List.not_mem_nil, or_false] at hplug
    have hin : plug.parent = some offsetPlug ∨ plug = udimPlug ∨ plug = uvSetPlug := by
      rcases hplug with h | h | h | h
      · exact Or.inl (h ▸ hx)
      · exact Or.inl (h ▸ hy)
      · exact Or.inr (Or.inl h)
      · exact Or.inr (Or.inr h)
    rw [hyes plug hin]
    simp

/-- Witness of C5: over a base class that reports nothing, offset.x, udim and uvSet
affect the output object, and the input object plug and the offset plug itself add
nothing. -/
theorem affects_object_witness :
    affects (fun _ outputs => outputs) (offsetPlug.child "x") []
      = [] ++ [outPlug.objectPlug] ∧
    affects (fun _ outputs => outputs) udimPlug [] = [] ++ [outPlug.objectPlug] ∧
    affects (fun _ outputs => outputs) uvSetPlug [] = [] ++ [outPlug.objectPlug] ∧
    affects (fun _ outputs => outputs) inPlug.objectPlug [] = [] ∧
    affects (fun _ outputs => outputs) offsetPlug [] = [] :=
  ⟨(affects_object (fun _ outputs => outputs) []).1 _ (Or.inl (by decide)),
   (affects_object (fun _ outputs => outputs) []).1 _ (Or.inr (Or.inl rfl)),
   (affects_object (fun _ outputs => outputs) []).1 _ (Or.inr (Or.inr rfl)),
   (affects_object (fun _ outputs => outputs) []).2.2.2.1 _ (by decide) (by decide)
     (by decide),
   (affects_object (fun _ outputs => outputs) []).2.2.2.1 _ (by decide) (by decide)
     (by decide)⟩

/-- C8: the constructor connects the output attributes, transform and bound plugs to
the corresponding input plugs and leaves the connection of the output object plug
as it was; so every value and every hash that follows the connections is, for
attributes, transform and bound, at every path and in every context, that of the
input, whatever the offset, udim and uvSet plugs hold. -/
theorem construct_passes_through {α : Type} (base : Node)
    (value : Plug → ScenePath → Context → α) (hash : Plug → ScenePath → Context → MurmurHash)
    (hValue : FollowsConnections (construct base).2 value)
    (hHash : FollowsConnections (construct base).2 hash) :
    (construct base).2.input outPlug.attributesPlug = some inPlug.attributesPlug ∧
    (construct base).2.input outPlug.transformPlug = some inPlug.transformPlug ∧
    (construct base).2.input outPlug.boundPlug = some inPlug.boundPlug ∧
    (construct base).2.input outPlug.objectPlug = base.input outPlug.objectPlug ∧
    ∀ (path : ScenePath) (context : Context),
      value outPlug.attributesPlug path context = value inPlug.attributesPlug path context ∧
      value outPlug.transformPlug path context = value inPlug.transformPlug path context ∧
      value outPlug.boundPlug path context = value inPlug.boundPlug path context ∧
      hash outPlug.attributesPlug path context = hash inPlug.attributesPlug path context ∧
      hash outPlug.transformPlug path context = hash inPlug.transformPlug path context ∧
      hash outPlug.boundPlug path context = hash inPlug.boundPlug path context := by
  have hab : outPlug.attributesPlug ≠ outPlug.boundPlug := by decide
  have hat : outPlug.attributesPlug ≠ outPlug.transformPlug := by decide
  have htb : outPlug.transformPlug ≠ outPlug.boundPlug := by decide
  have hob : outPlug.objectPlug ≠ outPlug.boundPlug := by decide
  have hot : outPlug.objectPlug ≠ outPlug.transformPlug := by decide
  have hoa : outPlug.objectPlug ≠ outPlug.attributesPlug := by decide
  have ha : (construct base).2.input outPlug.attributesPlug = some inPlug.attributesPlug := by
    simp [construct, Node.setInput, Node.addChild, hab, hat]
  have ht : (construct base).2.input outPlug.transformPlug = some inPlug.transformPlug := by
    simp [construct, Node.setInput, Node.addChild, htb]
  have hb : (construct base).2.input outPlug.boundPlug = some inPlug.boundPlug := by
    simp [construct, Node.setInput, Node.addChild]
  have ho : (construct base).2.input outPlug.objectPlug = base.input outPlug.objectPlug := by
    simp [construct, Node.setInput, Node.addChild, hob, hot, hoa]
  refine ⟨ha, ht, hb, ho, ?_⟩
  intro path context
  rw [hValue _ _ ha, hValue _ _ ht, hValue _ _ hb, hHash _ _ ha, hHash _ _ ht, hHash _ _ hb]
  exact ⟨rfl, rfl, rfl, rfl, rfl, rfl⟩

/-- Witness of C8: the node built on four base-class children, read by a value and a
hash that depend on the last name of the plug. -/
theorem construct_passes_through_witness :
    FollowsConnections (construct bareNode).2 lastName ∧
    FollowsConnections (construct bareNode).2 lastNameHash ∧
    (construct bareNode).2.input outPlug.attributesPlug = some inPlug.attributesPlug ∧
    lastName outPlug.attributesPlug ["plane"] [] = lastName inPlug.attributesPlug ["plane"] [] ∧
    lastNameHash outPlug.boundPlug ["plane"] [] = lastNameHash inPlug.boundPlug ["plane"] [] := by
  have follows : ∀ plug input, (construct bareNode).2.input plug = some input →
      plug.names.getLastD "" = input.names.getLastD "" := by
    intro plug input h
    simp only [construct, Node.setInput, Node.addChild, bareNode] at h
    split_ifs at h with h₁ h₂ h₃
    · cases h
      subst h₁
      decide
    · cases h
      subst h₂
      decide
    · cases h
      subst h₃
      decide
  have hv : FollowsConnections (construct bareNode).2 lastName := by
    intro plug input h
    funext path context
    exact follows plug input h
  have hh : FollowsConnections (construct bareNode).2 lastNameHash := by
    intro plug input h
    funext path context
    simp only [lastNameHash, follows plug input h]
  have hall := construct_passes_through bareNode lastName lastNameHash hv hh
  exact ⟨hv, hh, hall.1, (hall.2.2.2.2 ["plane"] []).1, (hall.2.2.2.2 ["plane"] []).2.2.2.2.2⟩

end GafferScene
